import Mathlib

/-!
Verification of the beego `context` request-parameter binder
(`BeegoInput.Bind` and its sub-binders) against its specification.

The Go source is shallowly embedded: `url.Values` (the parsed form) is an
association list iterated in list order, `reflect.Type` is the inductive
`Typ`, `reflect.Value` is `RVal` (carrying its Go type, payload and
addressability flag), and Go runtime panics are modelled as the `.error`
case of `Except String`.  Strings are treated as their character lists
(the Go code indexes by byte; all keys of interest are ASCII).
-/

namespace BeegoBind

/-- Signed integer kinds: `int, int8, int16, int32, int64`
(`reflect.Int .. reflect.Int64`).  `int` is 64-bit (as on the platforms
beego targets) but is a distinct Go type from `int64`. -/
inductive IW where
  | i | i8 | i16 | i32 | i64
deriving DecidableEq, Repr

/-- Unsigned integer kinds: `uint, uint8, uint16, uint32, uint64`. -/
inductive UW where
  | u | u8 | u16 | u32 | u64
deriving DecidableEq, Repr

/-- Float kinds: `float32, float64`. -/
inductive FW where
  | f32 | f64
deriving DecidableEq, Repr

def IW.bits : IW → Nat
  | .i => 64 | .i8 => 8 | .i16 => 16 | .i32 => 32 | .i64 => 64

def UW.bits : UW → Nat
  | .u => 64 | .u8 => 8 | .u16 => 16 | .u32 => 32 | .u64 => 64

mutual
/-- Go type descriptors, by `reflect.Kind`, restricted to what the binder
dispatches on.  `tiface` is the empty interface `interface\x7b\x7d` (every value
is assignable to it); `tother` stands for any remaining kind the
dispatcher's `switch` does not handle (chan, func, complex, array,
uintptr) — no value produced by the binder is assignable to it. -/
inductive Typ where
  | tint : IW → Typ
  | tuint : UW → Typ
  | tfloat : FW → Typ
  | tstring : Typ
  | tbool : Typ
  | tslice : Typ → Typ
  | tstruct : Fields → Typ
  | tptr : Typ → Typ
  | tmap : Typ → Typ → Typ
  | tiface : Typ
  | tother : Typ

/-- A struct type's field list: name, settability (false for unexported
fields, where `reflect.Value.CanSet` is false), and field type. -/
inductive Fields where
  | nil : Fields
  | cons (name : String) (canSet : Bool) (ty : Typ) (rest : Fields) : Fields
end

/-- Go runtime values as produced/stored by the binder.  `gnil` is the zero
pointer/interface, `gother` the zero of unhandled kinds. -/
inductive GoVal where
  | gint : Int → GoVal
  | guint : Nat → GoVal
  | gfloat : Rat → GoVal
  | gstring : String → GoVal
  | gbool : Bool → GoVal
  | gslice : List GoVal → GoVal
  | gstruct : List GoVal → GoVal
  | gptr : GoVal → GoVal
  | gmap : List (GoVal × GoVal) → GoVal
  | gnil : GoVal
  | gother : GoVal

mutual
/-- The zero `GoVal` of a type (`reflect.Zero`). -/
def zeroVal : Typ → GoVal
  | .tint _ => .gint 0
  | .tuint _ => .guint 0
  | .tfloat _ => .gfloat 0
  | .tstring => .gstring ""
  | .tbool => .gbool false
  | .tslice _ => .gslice []
  | .tstruct fs => .gstruct (zeroFields fs)
  | .tptr _ => .gnil
  | .tmap _ _ => .gmap []
  | .tiface => .gnil
  | .tother => .gother

def zeroFields : Fields → List GoVal
  | .nil => []
  | .cons _ _ t rest => zeroVal t :: zeroFields rest
end

mutual
/-- Structural equality of Go types (Go type identity). -/
def Typ.beq : Typ → Typ → Bool
  | .tint a, .tint b => a = b
  | .tuint a, .tuint b => a = b
  | .tfloat a, .tfloat b => a = b
  | .tstring, .tstring => true
  | .tbool, .tbool => true
  | .tslice a, .tslice b => Typ.beq a b
  | .tstruct a, .tstruct b => Fields.beq a b
  | .tptr a, .tptr b => Typ.beq a b
  | .tmap ka va, .tmap kb vb => Typ.beq ka kb && Typ.beq va vb
  | .tiface, .tiface => true
  | .tother, .tother => true
  | _, _ => false

def Fields.beq : Fields → Fields → Bool
  | .nil, .nil => true
  | .cons n s t r, .cons n' s' t' r' => n = n' && s = s' && Typ.beq t t' && Fields.beq r r'
  | _, _ => false
end

/-- Go assignability as checked by `reflect.Value.Set` / `Append` /
`SetMapIndex`: identical type, or assignment to the empty interface. -/
def assignable (src dst : Typ) : Bool :=
  Typ.beq src dst || (match dst with | .tiface => true | _ => false)

/-- A `reflect.Value`: either the invalid zero `Value`, or a value of a Go
type together with its addressability (`CanAddr`). -/
inductive RVal where
  | invalid : RVal
  | mk (ty : Typ) (val : GoVal) (addr : Bool) : RVal

/-- The value `reflect.Zero(reflect.TypeOf(0))` — the dispatcher's default result:
a *valid*, non-addressable `int` zero. -/
def sentinel : RVal := .mk (.tint .i) (.gint 0) false

/-! Decimal parsing (`strconv`).

`strconv.ParseInt(s, 10, 64)` / `ParseUint(s, 10, 64)` / `Atoi`,
modelled exactly for base-10: an optional sign (`ParseInt` only), then a
non-empty run of ASCII digits, with the 64-bit range check.  On a syntax
error Go returns value `0`; on a range error `ParseInt` returns the
clamped extremum — `Atoi` discards the error, so both returned values
matter for `bindSlice`'s ignored-error `Atoi` call. -/

/-- The numeric value of a non-empty all-digit character run, `none`
otherwise (`strconv`'s per-digit accumulation, exact). -/
def digitsVal? (cs : List Char) : Option Nat :=
  match cs with
  | [] => none
  | _ => go cs 0
where
  go : List Char → Nat → Option Nat
    | [], acc => some acc
    | c :: cs, acc =>
      if c.isDigit then go cs (acc * 10 + (c.toNat - '0'.toNat)) else none

/-- Model of `strconv.ParseInt(s, 10, 64)`: `some n` on success, `none` on a syntax
or range error (the caller `bindInt` only checks `err != nil`). -/
def parseInt64 (s : String) : Option Int :=
  match s.data with
  | [] => none
  | c :: rest =>
    let (neg, ds) :=
      if c = '-' then (true, rest)
      else if c = '+' then (false, rest)
      else (false, c :: rest)
    match digitsVal? ds with
    | none => none
    | some n =>
      if neg then (if n > 2 ^ 63 then none else some (-(n : Int)))
      else (if n ≥ 2 ^ 63 then none else some (n : Int))

/-- Model of `strconv.ParseUint(s, 10, 64)`: no sign prefix is permitted. -/
def parseUint64 (s : String) : Option Nat :=
  match digitsVal? s.data with
  | none => none
  | some n => if n ≥ 2 ^ 64 then none else some n

/-- Model of `strconv.Atoi(s)` with the error discarded (as in `bindSlice`'s
`index, _ = strconv.Atoi(...)`): `0` on a syntax error, the clamped
extremum (`±` int64 bound) on a range error. -/
def atoiVal (s : String) : Int :=
  match s.data with
  | [] => 0
  | c :: rest =>
    let (neg, ds) :=
      if c = '-' then (true, rest)
      else if c = '+' then (false, rest)
      else (false, c :: rest)
    match digitsVal? ds with
    | none => 0
    | some n =>
      if neg then (if n > 2 ^ 63 then -(2 ^ 63) else -(n : Int))
      else (if n ≥ 2 ^ 63 then 2 ^ 63 - 1 else (n : Int))

/-- Model of `strconv.ParseFloat(s, 64)` for plain decimal syntax
(sign, digits, optional fraction, optional decimal exponent), returning
the *exact* rational value: IEEE-754 rounding, hex-float/`inf`/`nan`
forms and the overflow threshold are not modelled (no claim in this
development inspects a float's numeric content). -/
def parseFloatQ (s : String) : Option Rat :=
  match s.data with
  | [] => none
  | c :: rest =>
    let (neg, ds) :=
      if c = '-' then (true, rest)
      else if c = '+' then (false, rest)
      else (false, c :: rest)
    let intDigits := ds.takeWhile Char.isDigit
    let afterInt := ds.drop intDigits.length
    let (fracDigits, afterFrac) :=
      match afterInt with
      | '.' :: t => (t.takeWhile Char.isDigit, t.drop (t.takeWhile Char.isDigit).length)
      | _ => ([], afterInt)
    if intDigits.length + fracDigits.length = 0 then none
    else
      let mant : Nat := (intDigits ++ fracDigits).foldl
        (fun acc c => acc * 10 + (c.toNat - '0'.toNat)) 0
      let base : Rat := (mant : Rat) / ((10 : Rat) ^ fracDigits.length)
      let withExp : Option Rat :=
        match afterFrac with
        | [] => some base
        | e :: t =>
          if e = 'e' ∨ e = 'E' then
            match t with
            | [] => none
            | c2 :: t2 =>
              let (eneg, eds) :=
                if c2 = '-' then (true, t2)
                else if c2 = '+' then (false, t2)
                else (false, c2 :: t2)
              match digitsVal? eds with
              | none => none
              | some ev =>
                some (if eneg then base / ((10 : Rat) ^ ev) else base * ((10 : Rat) ^ ev))
          else none
      withExp.map (fun q => if neg then -q else q)

/-- Two's-complement truncation of an `int64` to a narrower signed width:
`reflect.Value.SetInt` stores `int8(x)`, `int16(x)`, ... which wrap. -/
def wrapS (bits : Nat) (x : Int) : Int :=
  (x + 2 ^ (bits - 1)) % 2 ^ bits - 2 ^ (bits - 1)

/-- Truncation of a `uint64` to a narrower unsigned width
(`reflect.Value.SetUint`). -/
def wrapU (bits : Nat) (n : Nat) : Nat := n % 2 ^ bits

/-! The input: route params and the parsed form. -/

/-- Model of `url.Values`: the parsed form, a multi-valued string map, as
an association list; Go's (unspecified) map iteration order is the list
order, and keys are unique in values produced by `url.ParseQuery`. -/
abbrev Form := List (String × List String)

/-- The part of `BeegoInput` the binder reads: the router `Params` map and
the already-parsed `Request.Form` (the lazy `ParseForm()` call inside
`Query` is modelled by the form being given up front). -/
structure Input where
  params : List (String × String)
  form : Form

/-- Association-list lookup (first match, as for unique-keyed Go maps). -/
def lookupForm (form : Form) (k : String) : Option (List String) :=
  (form.find? (fun p => p.1 == k)).map (·.2)

/-- Model of `url.Values.Get`: first value under the key, `""` if absent. -/
def formGet (form : Form) (k : String) : String :=
  match lookupForm form k with
  | some (v :: _) => v
  | _ => ""

/-- Model of `BeegoInput.Param`: router param by key, `""` if absent. -/
def Input.param (inp : Input) (k : String) : String :=
  match (inp.params.find? (fun p => p.1 == k)).map (·.2) with
  | some v => v
  | none => ""

/-- Model of `BeegoInput.Query`: the router param if non-empty, else the form. -/
def Input.query (inp : Input) (k : String) : String :=
  if inp.param k ≠ "" then inp.param k else formGet inp.form k

/-! Scalar sub-binders. -/

/-- Sub-binder `bindInt`: `ParseInt(val, 10, 64)`; on error `reflect.Zero(typ)`
(non-addressable), else a fresh `reflect.New(typ).Elem()` (addressable)
whose `SetInt` truncates to the target width. -/
def bindInt (val : String) (w : IW) : RVal :=
  match parseInt64 val with
  | none => .mk (.tint w) (zeroVal (.tint w)) false
  | some n => .mk (.tint w) (.gint (wrapS w.bits n)) true

/-- Sub-binder `bindUint`: `ParseUint(val, 10, 64)`; zero on error, else `SetUint`
truncating to the target width. -/
def bindUint (val : String) (w : UW) : RVal :=
  match parseUint64 val with
  | none => .mk (.tuint w) (zeroVal (.tuint w)) false
  | some n => .mk (.tuint w) (.guint (wrapU w.bits n)) true

/-- Sub-binder `bindFloat`: `ParseFloat(val, 64)`; zero on error (the `float32`
narrowing of `SetFloat` is not modelled — see `parseFloatQ`). -/
def bindFloat (val : String) (w : FW) : RVal :=
  match parseFloatQ val with
  | none => .mk (.tfloat w) (zeroVal (.tfloat w)) false
  | some q => .mk (.tfloat w) (.gfloat q) true

/-- Sub-binder `bindString`: `reflect.ValueOf(val)` — identity, non-addressable. -/
def bindString (val : String) : RVal :=
  .mk .tstring (.gstring val) false

/-- Model of `strings.ToLower` restricted to ASCII (Go lower-cases by
Unicode rules; only ASCII inputs are of interest to the binder's literal
set). -/
def toLowerStr (s : String) : String :=
  ⟨s.data.map (fun c => if 'A' ≤ c ∧ c ≤ 'Z' then Char.ofNat (c.toNat + 32) else c)⟩

/-- Model of `unicode.IsSpace` restricted to ASCII: space, `\t`, `\n`,
`\v`, `\f`, `\r`. -/
def isSpaceChar (c : Char) : Bool :=
  c = ' ' ∨ c = '\t' ∨ c = '\n' ∨ c = '\x0b' ∨ c = '\x0c' ∨ c = '\r'

/-- Model of `strings.TrimSpace`: drop leading and trailing space. -/
def trimStr (s : String) : String :=
  ⟨((s.data.dropWhile isSpaceChar).reverse.dropWhile isSpaceChar).reverse⟩

/-- Sub-binder `bindBool`: lower-case, trim surrounding space, then compare with the
literals `true`, `on`, `1`; `reflect.ValueOf(bool)` is non-addressable. -/
def bindBool (val : String) : RVal :=
  let v := trimStr (toLowerStr val)
  if v == "true" || v == "on" || v == "1" then .mk .tbool (.gbool true) false
  else .mk .tbool (.gbool false) false

/-! Map storage. -/

mutual
/-- Go `==` on map keys: scalars and strings by value, `nil` equal to
`nil`, structs componentwise.  Pointer keys compare by address — the
binder allocates fresh storage for every bound pointer, so two bound
pointer keys are never equal (`false`).  Slice/map keys are not legal Go
map key types at all (such a `map` type does not compile), so their
comparison is unreachable from any real destination type. -/
def GoVal.keyEq : GoVal → GoVal → Bool
  | .gint a, .gint b => a = b
  | .guint a, .guint b => a = b
  | .gfloat a, .gfloat b => a = b
  | .gstring a, .gstring b => a = b
  | .gbool a, .gbool b => a = b
  | .gnil, .gnil => true
  | .gstruct xs, .gstruct ys => keyEqList xs ys
  | _, _ => false

def keyEqList : List GoVal → List GoVal → Bool
  | [], [] => true
  | x :: xs, y :: ys => GoVal.keyEq x y && keyEqList xs ys
  | _, _ => false
end

/-- Go map assignment (`reflect.Value.SetMapIndex` with a non-zero
value): overwrite the entry whose key is `==`-equal, else insert. -/
def mapSet (m : List (GoVal × GoVal)) (k v : GoVal) : List (GoVal × GoVal) :=
  match m with
  | [] => [(k, v)]
  | (k', v') :: rest =>
    if GoVal.keyEq k' k then (k', v) :: rest else (k', v') :: mapSet rest k v

/-! Composite sub-binders.

Each takes the element/field/key-value *binder functions* as arguments
(the recursive `input.bind` / `input.bindValue` calls of the Go code,
closed over the element type); a `.error` result models a Go panic. -/

/-- The accumulator of `bindSlice`'s scan: `maxIndex`, `numNoIndex` and
the collected `sliceValue` pairs (index `-1` = unindexed). -/
structure SliceAcc where
  maxIndex : Int
  numNoIndex : Nat
  sliceValues : List (Int × RVal)

/-- The body of `bindSlice`'s scan loop (lines 454–485), processing one
form entry against the accumulator: an entry whose key does not extend
`key + "["` is skipped; otherwise the first `]` after the prefix
delimits the bracket token, a non-empty token is fed to `strconv.Atoi`
*with the error ignored*, and a resulting index `> -1` records one
indexed element bound by key on `reqKey[:rightBracket+1]`, while
otherwise every value under the entry is recorded as an unindexed
element bound by literal. -/
def sliceStep (bindK bindV : String → Except String RVal) (key reqKey : String)
    (vals : List String) (acc : SliceAcc) : Except String SliceAcc :=
  if ¬ ((key ++ "[").data.isPrefixOf reqKey.data) then pure acc
  else
    let keyLen := key.data.length
    let leftBracket : Int := keyLen
    let rightBracket : Int :=
      (match (reqKey.data.drop keyLen).findIdx? (fun c => c == ']') with
       | some i => (i : Int)
       | none => -1) + keyLen
    let index : Int :=
      if rightBracket > leftBracket + 1 then
        atoiVal ⟨(reqKey.data.take rightBracket.toNat).drop (leftBracket.toNat + 1)⟩
      else -1
    let subKeyIndex := rightBracket + 1
    if index > -1 then do
      let rv ← bindK ⟨reqKey.data.take subKeyIndex.toNat⟩
      pure { maxIndex := if index > acc.maxIndex then index else acc.maxIndex,
             numNoIndex := acc.numNoIndex,
             sliceValues := acc.sliceValues ++ [(index, rv)] }
    else do
      let bvs ← vals.mapM bindV
      pure { maxIndex := acc.maxIndex,
             numNoIndex := acc.numNoIndex + vals.length,
             sliceValues := acc.sliceValues ++ bvs.map (fun rv => ((-1 : Int), rv)) }

/-- The scan loop of `bindSlice` (lines 453–486): fold `sliceStep` over
the form entries in iteration order. -/
def sliceLoop (bindK bindV : String → Except String RVal) (key : String) :
    Form → SliceAcc → Except String SliceAcc
  | [], acc => pure acc
  | (reqKey, vals) :: rest, acc => do
    let acc' ← sliceStep bindK bindV key reqKey vals acc
    sliceLoop bindK bindV key rest acc'

/-- The placement loop of `bindSlice` (lines 488–494): indexed values are
`Set` into their slot of the `reflect.MakeSlice` result, unindexed ones
are `reflect.Append`ed; both panic on an element-type mismatch, and
`Set` on the invalid `Value` panics. -/
def placeSlice (elem : Typ) : List (Int × RVal) → List GoVal → Except String (List GoVal)
  | [], arr => pure arr
  | (i, rv) :: rest, arr =>
    match rv with
    | .invalid => .error "reflect: Set using zero Value"
    | .mk ty v _ =>
      if i ≠ -1 then
        if assignable ty elem then placeSlice elem rest (arr.set i.toNat v)
        else .error "reflect.Set: value of wrong type"
      else
        if assignable ty elem then placeSlice elem rest (arr ++ [v])
        else .error "reflect.Append: value of wrong type"

/-- Sub-binder `bindSlice` (lines 449–496): scan, then
`reflect.MakeSlice(typ, maxIndex+1, maxIndex+1+numNoIndex)` (zero-filled
indexed slots), then placement.  The result is non-addressable. -/
def bindSlice (bindK bindV : String → Except String RVal)
    (params : Form) (key : String) (elem : Typ) : Except String RVal := do
  let acc ← sliceLoop bindK bindV key params ⟨-1, 0, []⟩
  let base := List.replicate (acc.maxIndex + 1).toNat (zeroVal elem)
  let arr ← placeSlice elem acc.sliceValues base
  pure (.mk (.tslice elem) (.gslice arr) false)

/-- Field lookup for `result.FieldByName(fieldName)`: position,
settability, type, and the field's by-literal binder. -/
def findField (fbs : List (String × Bool × Typ × (String → Except String RVal)))
    (name : String) : Option (Nat × Bool × Typ × (String → Except String RVal)) :=
  match fbs with
  | [] => none
  | (n, cs, t, fb) :: rest =>
    if n == name then some (0, cs, t, fb)
    else
      match findField rest name with
      | some (i, cs', t', fb') => some (i + 1, cs', t', fb')
      | none => none

/-- The body of `bindStruct`'s scan loop (lines 501–521), processing one
form entry against the state (bound field names, current field values):
an entry whose key does not extend `key + "."` is skipped; the
remainder is the field name; an already-bound name is skipped
(`fieldValues`), a missing (`!IsValid`) or unexported (`!CanSet`) field
is skipped silently; otherwise the entry's first value (`val[0]`, panic
when the value list is empty) is bound by literal and `Set` into the
field (panic on a type mismatch). -/
def structStep (fbs : List (String × Bool × Typ × (String → Except String RVal)))
    (key reqKey : String) (vals : List String) (bound : List String)
    (cur : List GoVal) : Except String (List String × List GoVal) :=
  if ¬ ((key ++ ".").data.isPrefixOf reqKey.data) then pure (bound, cur)
  else
    let fieldName : String := ⟨reqKey.data.drop (key.data.length + 1)⟩
    if bound.contains fieldName then pure (bound, cur)
    else
      match findField fbs fieldName with
      | none => pure (bound, cur)
      | some (idx, canSet, fty, fb) =>
        if ¬ canSet then pure (bound, cur)
        else
          match vals with
          | [] => .error "runtime error: index out of range"
          | v0 :: _ => do
            let bv ← fb v0
            match bv with
            | .invalid => .error "reflect: Set using zero Value"
            | .mk bt bval _ =>
              if assignable bt fty then pure (fieldName :: bound, cur.set idx bval)
              else .error "reflect.Set: value of wrong type"

/-- The scan loop of `bindStruct` (lines 501–521): fold `structStep` over
the form entries in iteration order. -/
def structLoop (fbs : List (String × Bool × Typ × (String → Except String RVal)))
    (key : String) : Form → List String → List GoVal → Except String (List GoVal)
  | [], _, cur => pure cur
  | (reqKey, vals) :: rest, bound, cur => do
    let s ← structStep fbs key reqKey vals bound cur
    structLoop fbs key rest s.1 s.2

/-- The body of `bindMap`'s scan loop (lines 536–543), processing one
form entry: an entry whose key does not extend `key + "["` or does not
end in `]` is skipped; otherwise the characters between the brackets
are bound by literal against the map's key type and the entry's first
value (`values[0]`, panic when empty) against its value type;
`SetMapIndex` panics on a type mismatch and overwrites an `==`-equal
key. -/
def mapStep (bk bv : String → Except String RVal) (kt vt : Typ) (key paramName : String)
    (values : List String) (acc : List (GoVal × GoVal)) :
    Except String (List (GoVal × GoVal)) :=
  if ¬ ((key ++ "[").data.isPrefixOf paramName.data) ∨
      paramName.data.getLast? ≠ some ']' then pure acc
  else do
    let mk : String :=
      ⟨(paramName.data.take (paramName.data.length - 1)).drop (key.data.length + 1)⟩
    let kv ← bk mk
    let vv ← match values with
      | [] => Except.error "runtime error: index out of range"
      | v0 :: _ => bv v0
    match kv, vv with
    | .mk kty kval _, .mk vty vval _ =>
      if assignable kty kt && assignable vty vt then
        pure (mapSet acc kval vval)
      else .error "reflect.Value.SetMapIndex: value of wrong type"
    | _, _ => .error "reflect: SetMapIndex using zero Value"

/-- The scan loop of `bindMap` (lines 536–543): fold `mapStep` over the
form entries in iteration order. -/
def mapLoop (bk bv : String → Except String RVal) (kt vt : Typ) (key : String) :
    Form → List (GoVal × GoVal) → Except String (List (GoVal × GoVal))
  | [], acc => pure acc
  | (paramName, values) :: rest, acc => do
    let acc' ← mapStep bk bv kt vt key paramName values acc
    mapLoop bk bv kt vt key rest acc'

/-- Sub-binder `bindMap` (lines 530–545): `reflect.MakeMap(typ)` then the scan; the
result is non-addressable. -/
def bindMap (bk bv : String → Except String RVal) (kt vt : Typ)
    (params : Form) (key : String) : Except String RVal := do
  let acc ← mapLoop bk bv kt vt key params []
  pure (.mk (.tmap kt vt) (.gmap acc) false)

/-- The `.Addr()` step of `bindPoint` (line 527): panics unless the bound
pointee value is addressable; the pointer itself is non-addressable. -/
def addrOf : RVal → Except String RVal
  | .invalid => .error "reflect: call of reflect.Value.Addr on zero Value"
  | .mk ty v addr =>
    if addr then pure (.mk (.tptr ty) (.gptr v) false)
    else .error "reflect.Value.Addr of unaddressable value"

/-! The dispatcher. -/

mutual
/-- Dispatcher `BeegoInput.bind` (lines 331–374): by-key dispatch on the type's kind.
`rv` starts as the valid zero `int` (`sentinel`); scalar kinds return it
when `Query` is empty, unhandled kinds (`tiface`, `tother`) return it
unconditionally.  Slice/struct/map scan `input.Request.Form`; the
pointer case is `bindPoint` = `bind(key, typ.Elem()).Addr()`. -/
def bind (inp : Input) (key : String) : Typ → Except String RVal
  | .tint w =>
    let val := inp.query key
    if val.length == 0 then pure sentinel else pure (bindInt val w)
  | .tuint w =>
    let val := inp.query key
    if val.length == 0 then pure sentinel else pure (bindUint val w)
  | .tfloat w =>
    let val := inp.query key
    if val.length == 0 then pure sentinel else pure (bindFloat val w)
  | .tstring =>
    let val := inp.query key
    if val.length == 0 then pure sentinel else pure (bindString val)
  | .tbool =>
    let val := inp.query key
    if val.length == 0 then pure sentinel else pure (bindBool val)
  | .tslice elem =>
    bindSlice (fun k => bind inp k elem) (fun v => bindValue inp v elem)
      inp.form key elem
  | .tstruct fs =>
    do
      let cur ← structLoop (fieldBinders inp fs) key inp.form [] (zeroFields fs)
      pure (.mk (.tstruct fs) (.gstruct cur) true)
  | .tptr t => do
    let rv ← bind inp key t
    addrOf rv
  | .tmap kt vt =>
    bindMap (fun s => bindValue inp s kt) (fun s => bindValue inp s vt) kt vt
      inp.form key
  | .tiface => pure sentinel
  | .tother => pure sentinel

/-- Dispatcher `BeegoInput.bindValue` (lines 376–399): by-literal dispatch.  Scalars
are bound directly from the literal (no emptiness check); slice, struct
and map scan the singleton `url.Values\x7b"": \x7bval\x7d\x7d` under key `""`; the
pointer case passes the *literal* as the key to the by-key binder. -/
def bindValue (inp : Input) (val : String) : Typ → Except String RVal
  | .tint w => pure (bindInt val w)
  | .tuint w => pure (bindUint val w)
  | .tfloat w => pure (bindFloat val w)
  | .tstring => pure (bindString val)
  | .tbool => pure (bindBool val)
  | .tslice elem =>
    bindSlice (fun k => bind inp k elem) (fun v => bindValue inp v elem)
      [("", [val])] "" elem
  | .tstruct fs =>
    do
      let cur ← structLoop (fieldBinders inp fs) "" [("", [val])] [] (zeroFields fs)
      pure (.mk (.tstruct fs) (.gstruct cur) true)
  | .tptr t => do
    let rv ← bind inp val t
    addrOf rv
  | .tmap kt vt =>
    bindMap (fun s => bindValue inp s kt) (fun s => bindValue inp s vt) kt vt
      [("", [val])] ""
  | .tiface => pure sentinel
  | .tother => pure sentinel

/-- The per-field by-literal binders of a struct type, in field order
(the closures `bindValue(val[0], fieldValue.Type())` of line 517). -/
def fieldBinders (inp : Input) : Fields →
    List (String × Bool × Typ × (String → Except String RVal))
  | .nil => []
  | .cons n cs t rest => (n, cs, t, fun v => bindValue inp v t) :: fieldBinders inp rest
end

/-- Sub-binder `bindStruct` (lines 498–524) as dispatched with an arbitrary `params`
mapping: `reflect.New(typ).Elem()` (zero-filled, addressable) then the
scan loop. -/
def bindStruct (inp : Input) (fs : Fields) (params : Form) (key : String) :
    Except String RVal := do
  let cur ← structLoop (fieldBinders inp fs) key params [] (zeroFields fs)
  pure (.mk (.tstruct fs) (.gstruct cur) true)

/-- Sub-binder `bindPoint` (lines 526–528): `input.bind(key, typ.Elem()).Addr()`. -/
def bindPoint (inp : Input) (key : String) (pointee : Typ) : Except String RVal := do
  let rv ← bind inp key pointee
  addrOf rv

/-! The public entry point. -/

/-- The destination argument of `Bind`: whether the passed value is a
pointer (`reflect.ValueOf(dest).Kind() == reflect.Ptr`), whether its
pointee is settable (`CanSet`, false e.g. for a nil pointer), the
pointee's type, and its current contents. -/
structure Dest where
  isPtr : Bool
  canSet : Bool
  ty : Typ
  val : GoVal

/-- What a call to `Bind` does: returns an `error` value, returns `nil`
having stored into the destination, or panics. -/
inductive BindOutcome where
  | ok (d : Dest)
  | err (msg : String)
  | panic (msg : String)

/-- Entry point `BeegoInput.Bind` (lines 314–329): the two precondition checks, the
dispatch, the invalid-value check (dead code: every branch of the
dispatcher returns a constructed, valid value), and
the final `value.Set(rv)` which panics unless `rv`'s type is assignable
to the destination's. -/
def Bind (inp : Input) (dest : Dest) (key : String) : BindOutcome :=
  if dest.isPtr = false then .err ("beego: non-pointer passed to Bind: " ++ key)
  else if dest.canSet = false then
    .err ("beego: non-settable variable passed to Bind: " ++ key)
  else
    match bind inp key dest.ty with
    | .error msg => .panic msg
    | .ok .invalid => .err "beego: reflect value is empty"
    | .ok (.mk ty v _) =>
      if assignable ty dest.ty then .ok { dest with val := v }
      else .panic "reflect.Set: value of wrong type"

/-! Basic computation lemmas shared by the claim theorems. -/

@[simp]
theorem except_ok_bind {ε α β : Type} (a : α) (f : α → Except ε β) :
    (Except.ok a >>= f) = f a := rfl

@[simp]
theorem except_error_bind {ε α β : Type} (e : ε) (f : α → Except ε β) :
    ((Except.error e : Except ε α) >>= f) = Except.error e := rfl

@[simp]
theorem except_pure {ε α : Type} (a : α) :
    (pure a : Except ε α) = Except.ok a := rfl

theorem IW_bits_pos (w : IW) : 0 < w.bits := by cases w <;> decide

theorem UW_bits_pos (w : UW) : 0 < w.bits := by cases w <;> decide

/-- Two's-complement truncation is the identity on values that fit the
target width. -/
theorem wrapS_eq_self (b : Nat) (hb : 0 < b) (x : Int)
    (h1 : -(2 ^ (b - 1)) ≤ x) (h2 : x < 2 ^ (b - 1)) : wrapS b x = x := by
  unfold wrapS
  have hb' : b - 1 + 1 = b := Nat.succ_pred_eq_of_pos hb
  have h2b : (2 : Int) ^ b = 2 ^ (b - 1) * 2 := by
    conv_lhs => rw [← hb']
    rw [pow_succ]
  have h0 : 0 ≤ x + 2 ^ (b - 1) := by linarith
  have hlt : x + 2 ^ (b - 1) < 2 ^ b := by rw [h2b]; linarith
  rw [Int.emod_eq_of_lt h0 hlt]
  ring

/-- Unsigned truncation is the identity on values that fit. -/
theorem wrapU_eq_self (b : Nat) (n : Nat) (h : n < 2 ^ b) : wrapU b n = n :=
  Nat.mod_eq_of_lt h

/-- Evaluation form of `bindBool`: the result is `true` exactly when the
lower-cased, trimmed input is one of the three literals. -/
theorem bindBool_eq (s : String) :
    bindBool s =
      (if trimStr (toLowerStr s) = "true" ∨ trimStr (toLowerStr s) = "on" ∨
          trimStr (toLowerStr s) = "1"
       then RVal.mk .tbool (.gbool true) false
       else RVal.mk .tbool (.gbool false) false) := by
  unfold bindBool
  by_cases h : trimStr (toLowerStr s) = "true" ∨ trimStr (toLowerStr s) = "on" ∨
      trimStr (toLowerStr s) = "1"
  · rw [if_pos h]
    have hb : (trimStr (toLowerStr s) == "true" || trimStr (toLowerStr s) == "on" ||
        trimStr (toLowerStr s) == "1") = true := by
      rcases h with h | h | h <;> simp [h]
    simp [hb]
  · rw [if_neg h]
    push_neg at h
    have hb : (trimStr (toLowerStr s) == "true" || trimStr (toLowerStr s) == "on" ||
        trimStr (toLowerStr s) == "1") = false := by
      simp [h.1, h.2.1, h.2.2]
    simp [hb]

/-! Claim C9: the bool sub-binder. -/

/-- C9 (confirmed).  For every input string, `bindBool` lower-cases and
trims the input, yields `true` exactly when the normalized result is one
of `true`, `on`, `1`, and yields `false` for every other input —
including `""`, `"0"`, `"false"`, `"yes"` — never an error (its result
is always a `bool`-typed value).  Case- and whitespace-insensitivity is
witnessed by `" TRUE "` and `"On"`. -/
theorem C9_bindBool_normalized_literal_set (val : String) :
    (bindBool val = RVal.mk .tbool (.gbool true) false ↔
      (trimStr (toLowerStr val) = "true" ∨ trimStr (toLowerStr val) = "on" ∨
        trimStr (toLowerStr val) = "1")) ∧
    (bindBool val = RVal.mk .tbool (.gbool false) false ↔
      ¬ (trimStr (toLowerStr val) = "true" ∨ trimStr (toLowerStr val) = "on" ∨
        trimStr (toLowerStr val) = "1")) ∧
    (bindBool val = RVal.mk .tbool (.gbool true) false ∨
      bindBool val = RVal.mk .tbool (.gbool false) false) ∧
    bindBool "" = RVal.mk .tbool (.gbool false) false ∧
    bindBool "0" = RVal.mk .tbool (.gbool false) false ∧
    bindBool "false" = RVal.mk .tbool (.gbool false) false ∧
    bindBool "yes" = RVal.mk .tbool (.gbool false) false ∧
    bindBool " TRUE " = RVal.mk .tbool (.gbool true) false ∧
    bindBool "On" = RVal.mk .tbool (.gbool true) false := by
  refine ⟨?_, ?_, ?_, by rfl, by rfl, by rfl, by rfl, by rfl, by rfl⟩
  · rw [bindBool_eq]
    by_cases h : trimStr (toLowerStr val) = "true" ∨ trimStr (toLowerStr val) = "on" ∨
        trimStr (toLowerStr val) = "1" <;> simp [h]
  · rw [bindBool_eq]
    by_cases h : trimStr (toLowerStr val) = "true" ∨ trimStr (toLowerStr val) = "on" ∨
        trimStr (toLowerStr val) = "1" <;> simp [h]
  · rw [bindBool_eq]
    by_cases h : trimStr (toLowerStr val) = "true" ∨ trimStr (toLowerStr val) = "on" ∨
        trimStr (toLowerStr val) = "1" <;> simp [h]

/-! Claim C4: scalar round-trip and failure behavior. -/

/-- C4 is falsified as stated: `bindInt` parses with `ParseInt(val, 10, 64)`
regardless of the destination width and `SetInt` then *truncates*, so the
out-of-`int8`-range string `"300"` binds to `44` (`300 mod 256 - 256`),
not to the zero value the claim requires. -/
theorem C4_narrow_int_truncates_cex :
    bindInt "300" IW.i8 = .mk (.tint .i8) (.gint 44) true ∧
    (44 : Int) ≠ 0 ∧
    ¬ ((300 : Int) < 2 ^ (IW.i8.bits - 1)) :=
  ⟨by rfl, by decide, by decide⟩

/-- C4 (amended).  For the signed and unsigned integer kinds: a string the
64-bit parse accepts binds to the parsed value truncated to the target
width (so it round-trips exactly when the value fits the target type);
a string the 64-bit parse rejects (non-numeric, or outside the 64-bit
range) binds to the zero value, never an error.  A string within the
64-bit range but outside a narrower target's range is *truncated*, not
zeroed.  (The float kinds are excluded here: their values are
IEEE-754-rounded, which this embedding does not model.) -/
theorem C4_scalar_binding_amended (w : IW) (u' : UW) (s : String) :
    (parseInt64 s = none → bindInt s w = .mk (.tint w) (.gint 0) false) ∧
    (∀ n, parseInt64 s = some n →
      bindInt s w = .mk (.tint w) (.gint (wrapS w.bits n)) true) ∧
    (∀ n, parseInt64 s = some n → -(2 ^ (w.bits - 1)) ≤ n → n < 2 ^ (w.bits - 1) →
      bindInt s w = .mk (.tint w) (.gint n) true) ∧
    (parseUint64 s = none → bindUint s u' = .mk (.tuint u') (.guint 0) false) ∧
    (∀ n, parseUint64 s = some n →
      bindUint s u' = .mk (.tuint u') (.guint (wrapU u'.bits n)) true) ∧
    (∀ n, parseUint64 s = some n → n < 2 ^ u'.bits →
      bindUint s u' = .mk (.tuint u') (.guint n) true) := by
  refine ⟨?_, ?_, ?_, ?_, ?_, ?_⟩
  · intro h; unfold bindInt; rw [h]; rfl
  · intro n h; unfold bindInt; rw [h]
  · intro n h h1 h2
    unfold bindInt; rw [h]
    show RVal.mk (.tint w) (.gint (wrapS w.bits n)) true = _
    rw [wrapS_eq_self w.bits (IW_bits_pos w) n h1 h2]
  · intro h; unfold bindUint; rw [h]; rfl
  · intro n h; unfold bindUint; rw [h]
  · intro n h h1
    unfold bindUint; rw [h]
    show RVal.mk (.tuint u') (.guint (wrapU u'.bits n)) true = _
    rw [wrapU_eq_self u'.bits n h1]

theorem C4_scalar_binding_amended_witness :
    bindInt "5" IW.i8 = .mk (.tint .i8) (.gint 5) true ∧
    bindInt "abc" IW.i64 = .mk (.tint .i64) (.gint 0) false ∧
    bindUint "250" UW.u8 = .mk (.tuint .u8) (.guint 250) true := by
  refine ⟨?_, ?_, ?_⟩
  · exact (C4_scalar_binding_amended .i8 .u8 "5").2.2.1 5 (by rfl) (by decide) (by decide)
  · exact (C4_scalar_binding_amended .i64 .u8 "abc").1 (by rfl)
  · exact (C4_scalar_binding_amended .i8 .u8 "250").2.2.2.2.2 250 (by rfl) (by decide)

/-! Claim C2: the precondition checks of the entry point. -/

/-- C2 (confirmed).  When the destination is not a pointer or its pointee
is not settable, `Bind` returns a precondition error; the result is the
same for *every* input (params and form) — so no form value is read —
and it neither stores into the destination nor panics. -/
theorem C2_Bind_invalid_destination (inp inp' : Input) (dest : Dest) (key : String)
    (h : dest.isPtr = false ∨ dest.canSet = false) :
    (∃ msg, Bind inp dest key = .err msg) ∧
    Bind inp dest key = Bind inp' dest key ∧
    (∀ d, Bind inp dest key ≠ .ok d) ∧
    (∀ msg, Bind inp dest key ≠ .panic msg) := by
  have e : ∃ m, ∀ i : Input, Bind i dest key = .err m := by
    rcases h with h | h
    · exact ⟨"beego: non-pointer passed to Bind: " ++ key, fun i => by simp [Bind, h]⟩
    · by_cases hp : dest.isPtr = false
      · exact ⟨"beego: non-pointer passed to Bind: " ++ key, fun i => by simp [Bind, hp]⟩
      · have hp' : dest.isPtr = true := by revert hp; cases dest.isPtr <;> simp
        exact ⟨"beego: non-settable variable passed to Bind: " ++ key,
          fun i => by simp [Bind, hp', h]⟩
  rcases e with ⟨m, e⟩
  refine ⟨⟨m, e inp⟩, (e inp).trans (e inp').symm, ?_, ?_⟩
  · intro d hd; rw [e inp] at hd; exact BindOutcome.noConfusion hd
  · intro msg hd; rw [e inp] at hd; exact BindOutcome.noConfusion hd

theorem C2_Bind_invalid_destination_witness :
    (∃ msg, Bind ⟨[], []⟩ ⟨false, true, .tint .i, .gint 0⟩ "id" = .err msg) ∧
    Bind ⟨[], []⟩ ⟨false, true, .tint .i, .gint 0⟩ "id" =
      Bind ⟨[("id", "7")], [("id", ["8"])]⟩ ⟨false, true, .tint .i, .gint 0⟩ "id" := by
  have h := C2_Bind_invalid_destination ⟨[], []⟩ ⟨[("id", "7")], [("id", ["8"])]⟩
    ⟨false, true, .tint .i, .gint 0⟩ "id" (Or.inl rfl)
  exact ⟨h.1, h.2.1⟩

/-! Claim C10: a missing key with a signed-integer destination. -/

/-- C10 is falsified as stated: the missing-data sentinel is typed as Go
`int`, which is *not assignable* to an `int64` destination, so for the
widths `int8..int64` the final `value.Set(rv)` panics instead of
returning success. -/
theorem C10_missing_key_signed_cex :
    Bind ⟨[], []⟩ ⟨true, true, .tint .i64, .gint 7⟩ "id" =
      .panic "reflect.Set: value of wrong type" ∧
    (∀ d, BindOutcome.panic "reflect.Set: value of wrong type" ≠ .ok d) :=
  ⟨by rfl, fun _ h => BindOutcome.noConfusion h⟩

/-- C10 (amended).  For a settable pointer destination of signed-integer
kind whose key is absent from both the router params and the form
(`Query` empty), the dispatcher returns the `int`-typed zero sentinel;
`Bind` then succeeds storing `0` exactly when the destination's type is
`int` itself, and panics in `Set` for the other signed widths (the
sentinel's type `int` is not assignable to them).  No "empty value"
error is reported in either case. -/
theorem C10_missing_key_signed_amended (inp : Input) (key : String) (dest : Dest)
    (w : IW) (hp : dest.isPtr = true) (hs : dest.canSet = true)
    (hty : dest.ty = .tint w) (hq : inp.query key = "") :
    (w = .i → Bind inp dest key = .ok { dest with val := .gint 0 }) ∧
    (w ≠ .i → Bind inp dest key = .panic "reflect.Set: value of wrong type") := by
  have hbind : bind inp key (.tint w) = .ok sentinel := by
    simp only [bind]; rw [hq]; rfl
  constructor
  · intro hwi; subst hwi
    simp [Bind, hp, hs, hty, hbind, sentinel, assignable, Typ.beq]
  · intro hw
    have hb : Typ.beq (.tint .i) (.tint w) = false := by
      simp only [Typ.beq, decide_eq_false_iff_not]
      exact fun hh => hw hh.symm
    simp [Bind, hp, hs, hty, hbind, sentinel, assignable, hb]

theorem C10_missing_key_signed_amended_witness :
    Bind ⟨[], []⟩ ⟨true, true, .tint .i, .gint 7⟩ "id" =
      .ok ⟨true, true, .tint .i, .gint 0⟩ ∧
    Bind ⟨[], []⟩ ⟨true, true, .tint .i16, .gint 7⟩ "id" =
      .panic "reflect.Set: value of wrong type" := by
  constructor
  · exact (C10_missing_key_signed_amended ⟨[], []⟩ "id" ⟨true, true, .tint .i, .gint 7⟩
      .i rfl rfl rfl rfl).1 rfl
  · exact (C10_missing_key_signed_amended ⟨[], []⟩ "id" ⟨true, true, .tint .i16, .gint 7⟩
      .i16 rfl rfl rfl rfl).2 (by decide)

/-! Claim C3: destinations of unsupported kind. -/

/-- C3 is falsified as stated: for a destination of an unhandled kind the
dispatcher's default is a *valid* `int`-typed zero, so `Bind` does not
take the "reflect value is empty" branch; instead the final `Set`
panics on the type mismatch — a panic, not the claimed error return. -/
theorem C3_unsupported_kind_cex :
    Bind ⟨[], []⟩ ⟨true, true, .tother, .gother⟩ "k" =
      .panic "reflect.Set: value of wrong type" ∧
    (∀ msg, BindOutcome.panic "reflect.Set: value of wrong type" ≠ .err msg) :=
  ⟨by rfl, fun _ h => BindOutcome.noConfusion h⟩

/-- C3 (amended).  For kinds outside the dispatcher's switch the produced
value is the valid `int` zero sentinel (never the invalid marker), so
the "empty value" error branch is not taken: for a non-interface
unhandled kind the final `Set` panics on the type mismatch and the
destination is not updated; for the empty-interface kind (to which `int`
is assignable) `Bind` succeeds and stores the `int` value `0`. -/
theorem C3_unsupported_kind_amended (inp : Input) (key : String) (dest : Dest)
    (hp : dest.isPtr = true) (hs : dest.canSet = true) :
    (bind inp key .tother = .ok sentinel ∧ bind inp key .tiface = .ok sentinel ∧
      sentinel ≠ RVal.invalid) ∧
    (dest.ty = .tother →
      Bind inp dest key = .panic "reflect.Set: value of wrong type" ∧
      Bind inp dest key ≠ .err "beego: reflect value is empty") ∧
    (dest.ty = .tiface → Bind inp dest key = .ok { dest with val := .gint 0 }) := by
  refine ⟨⟨rfl, rfl, by simp [sentinel]⟩, ?_, ?_⟩
  · intro hty
    have hbo : bind inp key Typ.tother = .ok sentinel := rfl
    have he : Bind inp dest key = .panic "reflect.Set: value of wrong type" := by
      simp [Bind, hp, hs, hty, hbo, sentinel, assignable, Typ.beq]
    exact ⟨he, by rw [he]; exact fun h => BindOutcome.noConfusion h⟩
  · intro hty
    have hbi : bind inp key Typ.tiface = .ok sentinel := rfl
    simp [Bind, hp, hs, hty, hbi, sentinel, assignable, Typ.beq]

theorem C3_unsupported_kind_amended_witness :
    Bind ⟨[], []⟩ ⟨true, true, .tiface, .gnil⟩ "k" =
      .ok ⟨true, true, .tiface, .gint 0⟩ ∧
    Bind ⟨[], []⟩ ⟨true, true, .tother, .gother⟩ "k" ≠
      .err "beego: reflect value is empty" := by
  constructor
  · exact (C3_unsupported_kind_amended ⟨[], []⟩ "k" ⟨true, true, .tiface, .gnil⟩
      rfl rfl).2.2 rfl
  · exact ((C3_unsupported_kind_amended ⟨[], []⟩ "k" ⟨true, true, .tother, .gother⟩
      rfl rfl).2.1 rfl).2

/-! Claim C5: the pointer sub-binder. -/

/-- A non-empty string's length is not zero (used to step the scalar
cases of `bind` when data is present). -/
theorem length_beq_zero_false_of_parse {s : String} {n : Int}
    (h : parseInt64 s = some n) : (s.length == 0) = false := by
  obtain ⟨data⟩ := s
  cases data with
  | nil => rw [show parseInt64 ⟨[]⟩ = none from rfl] at h; exact Option.noConfusion h
  | cons c cs => rfl

/-- C5 is falsified as stated: when the pointee has no matching data the
pointee binder returns the non-addressable zero sentinel, and
`bindPoint`'s `.Addr()` call *panics* — it does not produce a reference
to the zero value. -/
theorem C5_pointer_missing_data_cex :
    Bind ⟨[], []⟩ ⟨true, true, .tptr (.tint .i), .gnil⟩ "id" =
      .panic "reflect.Value.Addr of unaddressable value" ∧
    (∀ d, BindOutcome.panic "reflect.Value.Addr of unaddressable value" ≠ .ok d) :=
  ⟨by rfl, fun _ h => BindOutcome.noConfusion h⟩

/-- C5 (amended).  The pointer sub-binder takes the address of whatever
the pointee binder produced: when that value is addressable (a freshly
allocated parse result) the result is a non-null reference to it; when
it is *not* addressable — in particular for an integer pointee whose key
has no matching data — `.Addr()` panics.  For an integer pointee with
parseable data the result is a reference to the (truncated) parsed
value. -/
theorem C5_bindPoint_amended (inp : Input) (key : String) (t : Typ) :
    (bind inp key (.tptr t) = bindPoint inp key t) ∧
    (∀ ty v, bind inp key t = .ok (.mk ty v true) →
      bindPoint inp key t = .ok (.mk (.tptr ty) (.gptr v) false)) ∧
    (∀ ty v, bind inp key t = .ok (.mk ty v false) →
      bindPoint inp key t = .error "reflect.Value.Addr of unaddressable value") ∧
    (∀ w, t = .tint w → inp.query key = "" →
      bindPoint inp key t = .error "reflect.Value.Addr of unaddressable value") ∧
    (∀ w n, t = .tint w → parseInt64 (inp.query key) = some n →
      bindPoint inp key t =
        .ok (.mk (.tptr (.tint w)) (.gptr (.gint (wrapS w.bits n))) false)) := by
  refine ⟨rfl, ?_, ?_, ?_, ?_⟩
  · intro ty v h; unfold bindPoint; rw [h]; simp [addrOf]
  · intro ty v h; unfold bindPoint; rw [h]; simp [addrOf]
  · intro w ht hq; subst ht; unfold bindPoint
    have hb : bind inp key (.tint w) = .ok sentinel := by
      simp only [bind]; rw [hq]; rfl
    rw [hb]; simp [addrOf, sentinel]
  · intro w n ht hp; subst ht; unfold bindPoint
    have hne : ((inp.query key).length == 0) = false := length_beq_zero_false_of_parse hp
    have hb : bind inp key (.tint w) = .ok (bindInt (inp.query key) w) := by
      simp only [bind, hne, Bool.false_eq_true, if_false]; rfl
    rw [hb]
    unfold bindInt; rw [hp]; simp [addrOf]

theorem C5_bindPoint_amended_witness :
    bindPoint ⟨[], [("p", ["42"])]⟩ "p" (.tint .i) =
      .ok (.mk (.tptr (.tint .i)) (.gptr (.gint 42)) false) ∧
    bindPoint ⟨[], []⟩ "p" (.tint .i) =
      .error "reflect.Value.Addr of unaddressable value" := by
  constructor
  · have h := (C5_bindPoint_amended ⟨[], [("p", ["42"])]⟩ "p" (.tint .i)).2.2.2.2
      .i 42 rfl (by rfl)
    rw [h]
    rfl
  · exact (C5_bindPoint_amended ⟨[], []⟩ "p" (.tint .i)).2.2.2.1 .i rfl rfl

/-! Claim C1: the slice-binding examples. -/

/-- C1 (confirmed).  Binding `ol` against `ol[0]=1&ol[1]=2` into an
integer slice (any signed width) yields `[1, 2]`; binding `ul` against
`ul[]=str&ul[]=array` into a string slice yields `["str", "array"]` in
encounter order; binding `a` against the mixed `a[0]=x&a[]=y` yields a
length-2 sequence with `x` in the single indexed slot and `y` appended
after it.  The initial destination contents are irrelevant. -/
theorem C1_slice_binding_examples (w : IW) (v0 v1 v2 : GoVal) :
    Bind ⟨[], [("ol[0]", ["1"]), ("ol[1]", ["2"])]⟩ ⟨true, true, .tslice (.tint w), v0⟩
        "ol" = .ok ⟨true, true, .tslice (.tint w), .gslice [.gint 1, .gint 2]⟩ ∧
    Bind ⟨[], [("ul[]", ["str", "array"])]⟩ ⟨true, true, .tslice .tstring, v1⟩
        "ul" = .ok ⟨true, true, .tslice .tstring,
          .gslice [.gstring "str", .gstring "array"]⟩ ∧
    Bind ⟨[], [("a[0]", ["x"]), ("a[]", ["y"])]⟩ ⟨true, true, .tslice .tstring, v2⟩
        "a" = .ok ⟨true, true, .tslice .tstring,
          .gslice [.gstring "x", .gstring "y"]⟩ ∧
    [GoVal.gstring "x", GoVal.gstring "y"].length = 2 := by
  refine ⟨?_, by rfl, by rfl, by rfl⟩
  cases w <;> rfl

/-! Claim C7: the struct sub-binder. -/

theorem structStep_skip_nopre
    (fbs : List (String × Bool × Typ × (String → Except String RVal)))
    (key reqKey : String) (vals : List String) (bound : List String) (cur : List GoVal)
    (h : ((key ++ ".").data.isPrefixOf reqKey.data) = false) :
    structStep fbs key reqKey vals bound cur = .ok (bound, cur) := by
  unfold structStep
  rw [if_pos (show ¬ _ = true by rw [h]; exact Bool.false_ne_true)]
  rfl

theorem structStep_skip_nofield
    (fbs : List (String × Bool × Typ × (String → Except String RVal)))
    (key reqKey : String) (vals : List String) (bound : List String) (cur : List GoVal)
    (hpre : ((key ++ ".").data.isPrefixOf reqKey.data) = true)
    (hb : bound.contains (⟨reqKey.data.drop (key.data.length + 1)⟩ : String) = false)
    (hff : findField fbs (⟨reqKey.data.drop (key.data.length + 1)⟩ : String) = none) :
    structStep fbs key reqKey vals bound cur = .ok (bound, cur) := by
  unfold structStep
  rw [if_neg (show ¬ ¬ _ = true by rw [hpre]; exact not_not_intro rfl),
    if_neg (show ¬ _ = true by rw [hb]; exact Bool.false_ne_true), hff]
  rfl

theorem structStep_skip_noset
    (fbs : List (String × Bool × Typ × (String → Except String RVal)))
    (key reqKey : String) (vals : List String) (bound : List String) (cur : List GoVal)
    (idx : Nat) (fty : Typ) (fb : String → Except String RVal)
    (hpre : ((key ++ ".").data.isPrefixOf reqKey.data) = true)
    (hb : bound.contains (⟨reqKey.data.drop (key.data.length + 1)⟩ : String) = false)
    (hff : findField fbs (⟨reqKey.data.drop (key.data.length + 1)⟩ : String) =
      some (idx, false, fty, fb)) :
    structStep fbs key reqKey vals bound cur = .ok (bound, cur) := by
  unfold structStep
  rw [if_neg (show ¬ ¬ _ = true by rw [hpre]; exact not_not_intro rfl),
    if_neg (show ¬ _ = true by rw [hb]; exact Bool.false_ne_true), hff]
  rfl

theorem structStep_skip_bound
    (fbs : List (String × Bool × Typ × (String → Except String RVal)))
    (key reqKey : String) (vals : List String) (bound : List String) (cur : List GoVal)
    (hb : bound.contains (⟨reqKey.data.drop (key.data.length + 1)⟩ : String) = true) :
    structStep fbs key reqKey vals bound cur = .ok (bound, cur) := by
  unfold structStep
  by_cases hpre : ((key ++ ".").data.isPrefixOf reqKey.data) = true
  · rw [if_neg (show ¬ ¬ _ = true by rw [hpre]; exact not_not_intro rfl), if_pos hb]
    rfl
  · have hpre' : ((key ++ ".").data.isPrefixOf reqKey.data) = false := by
      revert hpre; cases (key ++ ".").data.isPrefixOf reqKey.data <;> simp
    rw [if_pos (show ¬ _ = true by rw [hpre']; exact Bool.false_ne_true)]
    rfl

/-- After a successful or skipping step, a second step on the *same* form
key from the resulting state is always a skip: either the first step
already recorded the field name as bound, or the reason the first step
skipped still applies. -/
theorem structStep_dup
    (fbs : List (String × Bool × Typ × (String → Except String RVal)))
    (key k : String) (vs vs' : List String) (bound : List String) (cur : List GoVal)
    (s : List String × List GoVal)
    (hstep : structStep fbs key k vs bound cur = .ok s) :
    structStep fbs key k vs' s.1 s.2 = .ok s := by
  by_cases hpre : ((key ++ ".").data.isPrefixOf k.data) = true
  · by_cases hb : bound.contains (⟨k.data.drop (key.data.length + 1)⟩ : String) = true
    · rw [structStep_skip_bound fbs key k vs bound cur hb] at hstep
      obtain rfl : (bound, cur) = s := by injection hstep
      exact structStep_skip_bound fbs key k vs' bound cur hb
    · have hb' : bound.contains (⟨k.data.drop (key.data.length + 1)⟩ : String) = false := by
        revert hb; cases bound.contains (⟨k.data.drop (key.data.length + 1)⟩ : String) <;> simp
      rcases hff : findField fbs (⟨k.data.drop (key.data.length + 1)⟩ : String) with
        _ | ⟨idx, cs, fty, fb⟩
      · rw [structStep_skip_nofield fbs key k vs bound cur hpre hb' hff] at hstep
        obtain rfl : (bound, cur) = s := by injection hstep
        exact structStep_skip_nofield fbs key k vs' bound cur hpre hb' hff
      · cases cs with
        | false =>
          rw [structStep_skip_noset fbs key k vs bound cur idx fty fb hpre hb' hff] at hstep
          obtain rfl : (bound, cur) = s := by injection hstep
          exact structStep_skip_noset fbs key k vs' bound cur idx fty fb hpre hb' hff
        | true =>
          unfold structStep at hstep
          rw [if_neg (show ¬ ¬ _ = true by rw [hpre]; exact not_not_intro rfl),
            if_neg (show ¬ _ = true by rw [hb']; exact Bool.false_ne_true)] at hstep
          simp only [hff] at hstep
          rw [if_neg (show ¬ ¬ True from fun hcontra => hcontra trivial)] at hstep
          cases vs with
          | nil => exact absurd hstep (by simp)
          | cons v0 vtail =>
            simp only [] at hstep
            cases hfb : fb v0 with
            | error e => rw [hfb] at hstep; simp at hstep
            | ok bv =>
              rw [hfb] at hstep
              simp only [except_ok_bind] at hstep
              cases bv with
              | invalid => simp at hstep
              | mk bt bval a =>
                simp only [] at hstep
                by_cases hass : assignable bt fty = true
                · rw [if_pos hass] at hstep
                  obtain rfl : ((⟨k.data.drop (key.data.length + 1)⟩ : String) :: bound,
                      cur.set idx bval) = s := by injection hstep
                  exact structStep_skip_bound fbs key k vs' _ _ (by simp)
                · rw [if_neg hass] at hstep
                  simp at hstep
  · have hpre' : ((key ++ ".").data.isPrefixOf k.data) = false := by
      revert hpre; cases (key ++ ".").data.isPrefixOf k.data <;> simp
    rw [structStep_skip_nopre fbs key k vs bound cur hpre'] at hstep
    obtain rfl : (bound, cur) = s := by injection hstep
    exact structStep_skip_nopre fbs key k vs' bound cur hpre'

/-- One scan step is insensitive to replacing the tail by a tail on which
the loop agrees from every state. -/
theorem structLoop_cons_congr
    (fbs : List (String × Bool × Typ × (String → Except String RVal)))
    (key : String) (e : String × List String) (rest rest' : Form)
    (h : ∀ bound cur, structLoop fbs key rest bound cur =
      structLoop fbs key rest' bound cur)
    (bound : List String) (cur : List GoVal) :
    structLoop fbs key (e :: rest) bound cur =
      structLoop fbs key (e :: rest') bound cur := by
  obtain ⟨reqKey, vals⟩ := e
  show (structStep fbs key reqKey vals bound cur >>= fun s =>
      structLoop fbs key rest s.1 s.2) =
    (structStep fbs key reqKey vals bound cur >>= fun s =>
      structLoop fbs key rest' s.1 s.2)
  cases hstep : structStep fbs key reqKey vals bound cur with
  | error e => rfl
  | ok s => simpa using h s.1 s.2

/-- The struct scan considers exactly the entries whose key extends
`key + "."`: filtering the other entries out does not change the loop. -/
theorem structLoop_filter
    (fbs : List (String × Bool × Typ × (String → Except String RVal)))
    (key : String) :
    ∀ (params : Form) (bound : List String) (cur : List GoVal),
      structLoop fbs key params bound cur =
        structLoop fbs key
          (params.filter (fun p => (key ++ ".").data.isPrefixOf p.1.data)) bound cur := by
  intro params
  induction params with
  | nil => intro bound cur; rfl
  | cons p rest ih =>
    intro bound cur
    obtain ⟨reqKey, vals⟩ := p
    cases hpre : (key ++ ".").data.isPrefixOf reqKey.data with
    | false =>
      rw [List.filter_cons_of_neg (by rw [hpre]; exact Bool.false_ne_true)]
      show (structStep fbs key reqKey vals bound cur >>= fun s =>
          structLoop fbs key rest s.1 s.2) = _
      rw [structStep_skip_nopre fbs key reqKey vals bound cur hpre]
      simpa using ih bound cur
    | true =>
      rw [show List.filter (fun p => (key ++ ".").data.isPrefixOf p.1.data)
            ((reqKey, vals) :: rest) =
          (reqKey, vals) :: List.filter (fun p => (key ++ ".").data.isPrefixOf p.1.data)
            rest from List.filter_cons_of_pos hpre]
      exact structLoop_cons_congr fbs key (reqKey, vals) rest _ (fun b c => ih b c) bound cur

/-- A second occurrence of the same form key in the scan order never
changes the result of the struct scan. -/
theorem structLoop_dup
    (fbs : List (String × Bool × Typ × (String → Except String RVal)))
    (key k : String) (vs vs' : List String) (rest : Form)
    (bound : List String) (cur : List GoVal) :
    structLoop fbs key ((k, vs) :: (k, vs') :: rest) bound cur =
      structLoop fbs key ((k, vs) :: rest) bound cur := by
  show (structStep fbs key k vs bound cur >>= fun s =>
      structLoop fbs key ((k, vs') :: rest) s.1 s.2) =
    (structStep fbs key k vs bound cur >>= fun s =>
      structLoop fbs key rest s.1 s.2)
  cases hstep : structStep fbs key k vs bound cur with
  | error e => rfl
  | ok s =>
    simp only [except_ok_bind]
    show (structStep fbs key k vs' s.1 s.2 >>= fun s2 =>
        structLoop fbs key rest s2.1 s2.2) = _
    rw [structStep_dup fbs key k vs vs' bound cur s hstep]
    simp

/-- C7 (confirmed).  The struct sub-binder considers exactly the entries
whose key starts with `prefix + "."` (filtering the others away changes
nothing); an entry whose remainder resolves to no field, or to a
non-writable field, is skipped silently; a repeated key is ignored after
its first occurrence; the bound value is the *first* value of the
entry's sequence, bound by literal.  `user.Name=astaxie` into a struct
with a writable string field `Name` yields that field set to
`"astaxie"`; an entry for a non-existent field leaves the zero struct;
only `"astaxie"` is used from `user.Name=astaxie&user.Name=second`. -/
theorem C7_bindStruct_behavior :
    (∀ (inp : Input) (key : String) (fs : Fields),
      bind inp key (.tstruct fs) = bindStruct inp fs inp.form key) ∧
    (∀ (inp : Input) (fs : Fields) (params : Form) (key : String),
      bindStruct inp fs params key =
        bindStruct inp fs
          (params.filter (fun p => (key ++ ".").data.isPrefixOf p.1.data)) key) ∧
    (∀ (inp : Input) (fs : Fields) (key reqKey : String) (vals : List String)
        (rest : Form),
      findField (fieldBinders inp fs)
        (⟨reqKey.data.drop (key.data.length + 1)⟩ : String) = none →
      bindStruct inp fs ((reqKey, vals) :: rest) key = bindStruct inp fs rest key) ∧
    (∀ (inp : Input) (fs : Fields) (key reqKey : String) (vals : List String)
        (rest : Form) (idx : Nat) (fty : Typ) (fb : String → Except String RVal),
      findField (fieldBinders inp fs)
        (⟨reqKey.data.drop (key.data.length + 1)⟩ : String) =
          some (idx, false, fty, fb) →
      bindStruct inp fs ((reqKey, vals) :: rest) key = bindStruct inp fs rest key) ∧
    (∀ (inp : Input) (fs : Fields) (key k : String) (vs vs' : List String)
        (rest : Form),
      bindStruct inp fs ((k, vs) :: (k, vs') :: rest) key =
        bindStruct inp fs ((k, vs) :: rest) key) ∧
    Bind ⟨[], [("user.Name", ["astaxie"])]⟩
        ⟨true, true, .tstruct (.cons "Name" true .tstring .nil), .gstruct [.gstring ""]⟩
        "user" =
      .ok ⟨true, true, .tstruct (.cons "Name" true .tstring .nil),
        .gstruct [.gstring "astaxie"]⟩ ∧
    Bind ⟨[], [("user.Name", ["astaxie", "second"])]⟩
        ⟨true, true, .tstruct (.cons "Name" true .tstring .nil), .gstruct [.gstring ""]⟩
        "user" =
      .ok ⟨true, true, .tstruct (.cons "Name" true .tstring .nil),
        .gstruct [.gstring "astaxie"]⟩ ∧
    Bind ⟨[], [("user.Nope", ["x"])]⟩
        ⟨true, true, .tstruct (.cons "Name" true .tstring .nil), .gstruct [.gstring "z"]⟩
        "user" =
      .ok ⟨true, true, .tstruct (.cons "Name" true .tstring .nil),
        .gstruct [.gstring ""]⟩ := by
  have hskip : ∀ (inp : Input) (fs : Fields) (key reqKey : String) (vals : List String)
      (rest : Form),
      structStep (fieldBinders inp fs) key reqKey vals [] (zeroFields fs) =
        .ok ([], zeroFields fs) →
      bindStruct inp fs ((reqKey, vals) :: rest) key = bindStruct inp fs rest key := by
    intro inp fs key reqKey vals rest hstep
    simp only [bindStruct]
    show ((structStep (fieldBinders inp fs) key reqKey vals [] (zeroFields fs) >>=
        fun s => structLoop (fieldBinders inp fs) key rest s.1 s.2) >>= _) = _
    rw [hstep]
    simp
  refine ⟨fun inp key fs => rfl, ?_, ?_, ?_, ?_, by rfl, by rfl, by rfl⟩
  · intro inp fs params key
    simp only [bindStruct]
    rw [structLoop_filter]
  · intro inp fs key reqKey vals rest hff
    by_cases hpre : ((key ++ ".").data.isPrefixOf reqKey.data) = true
    · exact hskip inp fs key reqKey vals rest
        (structStep_skip_nofield _ key reqKey vals [] _ hpre rfl hff)
    · exact hskip inp fs key reqKey vals rest
        (structStep_skip_nopre _ key reqKey vals [] _
          (by revert hpre; cases (key ++ ".").data.isPrefixOf reqKey.data <;> simp))
  · intro inp fs key reqKey vals rest idx fty fb hff
    by_cases hpre : ((key ++ ".").data.isPrefixOf reqKey.data) = true
    · exact hskip inp fs key reqKey vals rest
        (structStep_skip_noset _ key reqKey vals [] _ idx fty fb hpre rfl hff)
    · exact hskip inp fs key reqKey vals rest
        (structStep_skip_nopre _ key reqKey vals [] _
          (by revert hpre; cases (key ++ ".").data.isPrefixOf reqKey.data <;> simp))
  · intro inp fs key k vs vs' rest
    simp only [bindStruct]
    rw [structLoop_dup]

theorem C7_bindStruct_behavior_witness :
    bindStruct ⟨[], []⟩ (.cons "Name" true .tstring .nil)
        [("user.Nope", ["x"])] "user" =
      bindStruct ⟨[], []⟩ (.cons "Name" true .tstring .nil) [] "user" ∧
    bindStruct ⟨[], []⟩ (.cons "Name" true .tstring .nil)
        [("user.Name", ["a"])] "user" =
      bindStruct ⟨[], []⟩ (.cons "Name" true .tstring .nil)
        ([("user.Name", ["a"]), ("zzz", ["q"])].filter
          (fun p => ("user" ++ ".").data.isPrefixOf p.1.data)) "user" := by
  constructor
  · exact C7_bindStruct_behavior.2.2.1 ⟨[], []⟩ (.cons "Name" true .tstring .nil)
      "user" "user.Nope" ["x"] [] rfl
  · have h := C7_bindStruct_behavior.2.1 ⟨[], []⟩ (.cons "Name" true .tstring .nil)
      [("user.Name", ["a"]), ("zzz", ["q"])] "user"
    rw [← h]
    rfl

/-! Claim C8: the map sub-binder. -/

theorem mapStep_skip (bk bv : String → Except String RVal) (kt vt : Typ)
    (key paramName : String) (values : List String) (acc : List (GoVal × GoVal))
    (h : ¬ ((key ++ "[").data.isPrefixOf paramName.data) = true ∨
      paramName.data.getLast? ≠ some ']') :
    mapStep bk bv kt vt key paramName values acc = .ok acc := by
  unfold mapStep
  rw [if_pos h]
  rfl

theorem mapLoop_cons_congr (bk bv : String → Except String RVal) (kt vt : Typ)
    (key : String) (e : String × List String) (rest rest' : Form)
    (h : ∀ acc, mapLoop bk bv kt vt key rest acc = mapLoop bk bv kt vt key rest' acc)
    (acc : List (GoVal × GoVal)) :
    mapLoop bk bv kt vt key (e :: rest) acc =
      mapLoop bk bv kt vt key (e :: rest') acc := by
  obtain ⟨paramName, values⟩ := e
  show (mapStep bk bv kt vt key paramName values acc >>= fun a =>
      mapLoop bk bv kt vt key rest a) =
    (mapStep bk bv kt vt key paramName values acc >>= fun a =>
      mapLoop bk bv kt vt key rest' a)
  cases hstep : mapStep bk bv kt vt key paramName values acc with
  | error e => rfl
  | ok a => simpa using h a

/-- The map scan considers exactly the entries whose key extends
`key + "["` and ends in `]`: filtering the other entries out does not
change the loop. -/
theorem mapLoop_filter (bk bv : String → Except String RVal) (kt vt : Typ)
    (key : String) :
    ∀ (params : Form) (acc : List (GoVal × GoVal)),
      mapLoop bk bv kt vt key params acc =
        mapLoop bk bv kt vt key
          (params.filter (fun p => (key ++ "[").data.isPrefixOf p.1.data &&
            (p.1.data.getLast? == some ']'))) acc := by
  intro params
  induction params with
  | nil => intro acc; rfl
  | cons p rest ih =>
    intro acc
    obtain ⟨paramName, values⟩ := p
    cases hcond : ((key ++ "[").data.isPrefixOf paramName.data &&
        (paramName.data.getLast? == some ']')) with
    | false =>
      have hor : ¬ ((key ++ "[").data.isPrefixOf paramName.data) = true ∨
          paramName.data.getLast? ≠ some ']' := by
        cases hpre : (key ++ "[").data.isPrefixOf paramName.data with
        | false => exact Or.inl Bool.false_ne_true
        | true =>
          right
          rw [hpre, Bool.true_and] at hcond
          intro hlast
          rw [hlast] at hcond
          simp at hcond
      rw [show List.filter (fun p => (key ++ "[").data.isPrefixOf p.1.data &&
            (p.1.data.getLast? == some ']')) ((paramName, values) :: rest) =
          List.filter (fun p => (key ++ "[").data.isPrefixOf p.1.data &&
            (p.1.data.getLast? == some ']')) rest from
          List.filter_cons_of_neg (by rw [hcond]; exact Bool.false_ne_true)]
      show (mapStep bk bv kt vt key paramName values acc >>= fun a =>
          mapLoop bk bv kt vt key rest a) = _
      rw [mapStep_skip bk bv kt vt key paramName values acc hor]
      simpa using ih acc
    | true =>
      rw [show List.filter (fun p => (key ++ "[").data.isPrefixOf p.1.data &&
            (p.1.data.getLast? == some ']')) ((paramName, values) :: rest) =
          (paramName, values) :: List.filter
            (fun p => (key ++ "[").data.isPrefixOf p.1.data &&
              (p.1.data.getLast? == some ']')) rest from
          List.filter_cons_of_pos hcond]
      exact mapLoop_cons_congr bk bv kt vt key (paramName, values) rest _
        (fun a => ih a) acc

/-- C8 (confirmed).  The map sub-binder considers exactly the entries
whose key starts with `prefix + "["` and ends in `]` (filtering the
others away changes nothing); each such entry binds the substring
between the brackets against the key type and its first value against
the value type (both by literal) and inserts the pair, a later entry
overwriting an earlier one whose literal binds to the same key (here
`m[07]` and `m[7]` both bind the `int` key `7`).  `m[a]=1&m[b]=2` into a
string-to-int map yields exactly the two expected entries, and noise
entries (`noise`, unterminated `m[b`) are ignored. -/
theorem C8_bindMap_behavior :
    (∀ (inp : Input) (key : String) (kt vt : Typ),
      bind inp key (.tmap kt vt) =
        bindMap (fun s => bindValue inp s kt) (fun s => bindValue inp s vt) kt vt
          inp.form key) ∧
    (∀ (bk bv : String → Except String RVal) (kt vt : Typ) (params : Form)
        (key : String),
      bindMap bk bv kt vt params key =
        bindMap bk bv kt vt
          (params.filter (fun p => (key ++ "[").data.isPrefixOf p.1.data &&
            (p.1.data.getLast? == some ']'))) key) ∧
    Bind ⟨[], [("m[a]", ["1"]), ("m[b]", ["2"])]⟩
        ⟨true, true, .tmap .tstring (.tint .i), .gmap []⟩ "m" =
      .ok ⟨true, true, .tmap .tstring (.tint .i),
        .gmap [(.gstring "a", .gint 1), (.gstring "b", .gint 2)]⟩ ∧
    Bind ⟨[], [("m[07]", ["1"]), ("m[7]", ["2"])]⟩
        ⟨true, true, .tmap (.tint .i) (.tint .i), .gmap []⟩ "m" =
      .ok ⟨true, true, .tmap (.tint .i) (.tint .i), .gmap [(.gint 7, .gint 2)]⟩ ∧
    Bind ⟨[], [("m[a]", ["1"]), ("noise", ["9"]), ("m[b", ["8"]), ("m[b]", ["2"])]⟩
        ⟨true, true, .tmap .tstring (.tint .i), .gmap []⟩ "m" =
      .ok ⟨true, true, .tmap .tstring (.tint .i),
        .gmap [(.gstring "a", .gint 1), (.gstring "b", .gint 2)]⟩ := by
  refine ⟨fun inp key kt vt => rfl, ?_, by rfl, by rfl, by rfl⟩
  intro bk bv kt vt params key
  simp only [bindMap]
  rw [mapLoop_filter]

/-! Claim C6: index extraction during slice binding. -/

/-- C6 is falsified as stated: the bracket token `x` parses as *no*
non-negative integer (`digitsVal? = none`, an `Atoi` syntax error), yet
because `bindSlice` discards the `Atoi` error the entry `a[x]=5` is
recorded as an *indexed* element at position `0` — the bound sequence is
`[5]`, not the empty sequence the claim's classification implies. -/
theorem C6_nonnumeric_token_cex :
    Bind ⟨[], [("a[x]", ["5"])]⟩ ⟨true, true, .tslice (.tint .i), .gslice []⟩ "a" =
      .ok ⟨true, true, .tslice (.tint .i), .gslice [.gint 5]⟩ ∧
    digitsVal? ("x").data = none ∧
    atoiVal "x" = 0 ∧
    GoVal.gslice [.gint 5] ≠ .gslice [] :=
  ⟨by rfl, by rfl, by rfl, by simp⟩

/-- C6 (amended).  For a form entry whose key extends `prefix + "[":`
when a `]` exists at position `i ≥ 2` of the remainder (non-empty
bracket token) *and* the error-discarding `Atoi` of the token yields a
value `≥ 0` (which is `0` for non-numeric tokens), the entry is recorded
as one indexed element at that `Atoi` position, bound by key on
`reqKey[:rightBracket+1]`; otherwise — no closing bracket, empty token,
or a negative `Atoi` value — every value under the entry is recorded as
an unindexed element bound by literal. -/
theorem C6_slice_index_classification
    (bindK bindV : String → Except String RVal) (key reqKey : String)
    (vals : List String) (acc : SliceAcc)
    (hpre : ((key ++ "[").data.isPrefixOf reqKey.data) = true) :
    (∀ i : Nat,
      (reqKey.data.drop key.data.length).findIdx? (fun c => c == ']') = some i →
      2 ≤ i →
      0 ≤ atoiVal ⟨(reqKey.data.take (key.data.length + i)).drop (key.data.length + 1)⟩ →
      sliceStep bindK bindV key reqKey vals acc =
        bindK ⟨reqKey.data.take (key.data.length + i + 1)⟩ >>= fun rv =>
          pure (SliceAcc.mk
            (if atoiVal ⟨(reqKey.data.take (key.data.length + i)).drop
                  (key.data.length + 1)⟩ > acc.maxIndex
             then atoiVal ⟨(reqKey.data.take (key.data.length + i)).drop
               (key.data.length + 1)⟩
             else acc.maxIndex)
            acc.numNoIndex
            (acc.sliceValues ++
              [(atoiVal ⟨(reqKey.data.take (key.data.length + i)).drop
                (key.data.length + 1)⟩, rv)]))) ∧
    (((reqKey.data.drop key.data.length).findIdx? (fun c => c == ']') = none ∨
      (∃ i : Nat,
        (reqKey.data.drop key.data.length).findIdx? (fun c => c == ']') = some i ∧
        (i < 2 ∨ atoiVal ⟨(reqKey.data.take (key.data.length + i)).drop
          (key.data.length + 1)⟩ < 0))) →
      sliceStep bindK bindV key reqKey vals acc =
        vals.mapM bindV >>= fun bvs =>
          pure (SliceAcc.mk acc.maxIndex (acc.numNoIndex + vals.length)
            (acc.sliceValues ++ bvs.map (fun rv => ((-1 : Int), rv))))) := by
  constructor
  · intro i hrb h2 h0
    unfold sliceStep
    rw [if_neg (show ¬ ¬ _ = true by rw [hpre]; exact not_not_intro rfl)]
    simp only []
    rw [hrb]
    simp only []
    rw [if_pos (show ((i : Int) + (key.data.length : Int) >
        (key.data.length : Int) + 1) by omega)]
    rw [show ((i : Int) + (key.data.length : Int)).toNat = key.data.length + i by omega]
    rw [show ((key.data.length : Int)).toNat + 1 = key.data.length + 1 by omega]
    rw [if_pos (show atoiVal ⟨(reqKey.data.take (key.data.length + i)).drop
        (key.data.length + 1)⟩ > -1 by omega)]
    rw [show ((i : Int) + (key.data.length : Int) + 1).toNat =
      key.data.length + i + 1 by omega]
  · intro hB
    unfold sliceStep
    rw [if_neg (show ¬ ¬ _ = true by rw [hpre]; exact not_not_intro rfl)]
    rcases hB with hrb | ⟨i, hrb, hcase⟩
    · simp only []
      rw [hrb]
      simp only []
      rw [if_neg (show ¬ ((-1 : Int) + (key.data.length : Int) >
          (key.data.length : Int) + 1) by omega)]
      rw [if_neg (show ¬ ((-1 : Int) > -1) by omega)]
    · rcases hcase with h2 | hneg
      · simp only []
        rw [hrb]
        simp only []
        rw [if_neg (show ¬ ((i : Int) + (key.data.length : Int) >
            (key.data.length : Int) + 1) by omega)]
        rw [if_neg (show ¬ ((-1 : Int) > -1) by omega)]
      · simp only []
        rw [hrb]
        simp only []
        by_cases hgt : ((i : Int) + (key.data.length : Int) >
            (key.data.length : Int) + 1)
        · rw [if_pos hgt]
          rw [show ((i : Int) + (key.data.length : Int)).toNat =
            key.data.length + i by omega]
          rw [show ((key.data.length : Int)).toNat + 1 = key.data.length + 1 by omega]
          rw [if_neg (show ¬ (atoiVal ⟨(reqKey.data.take (key.data.length + i)).drop
              (key.data.length + 1)⟩ > -1) by omega)]
        · rw [if_neg hgt]
          rw [if_neg (show ¬ ((-1 : Int) > -1) by omega)]

theorem C6_slice_index_classification_witness :
    sliceStep (fun _ => .ok sentinel) (fun _ => .ok sentinel) "a" "a[x]" ["5"]
        ⟨-1, 0, []⟩ = .ok ⟨0, 0, [(0, sentinel)]⟩ ∧
    sliceStep (fun _ => .ok sentinel) (fun _ => .ok sentinel) "a" "a[]" ["y"]
        ⟨-1, 0, []⟩ = .ok ⟨-1, 1, [(-1, sentinel)]⟩ := by
  constructor
  · have h := (C6_slice_index_classification (fun _ => .ok sentinel)
      (fun _ => .ok sentinel) "a" "a[x]" ["5"] ⟨-1, 0, []⟩ (by rfl)).1 2
      (by rfl) (by decide) (by decide)
    rw [h]
    rfl
  · have h := (C6_slice_index_classification (fun _ => .ok sentinel)
      (fun _ => .ok sentinel) "a" "a[]" ["y"] ⟨-1, 0, []⟩ (by rfl)).2
      (Or.inr ⟨1, by rfl, Or.inl (by decide)⟩)
    rw [h]
    rfl

end BeegoBind
